import Mathlib

/-!
Verification of the weather ingestion/query/export backend
(`src/services/weather_service.py`, `src/routes/weather.py`,
`src/models/weather.py`).

Modelling conventions:
* Timestamps are `Int` (hour-resolution instants; `datetime` arithmetic is
  integer arithmetic on this time axis, `timedelta(hours=h)` is subtraction
  of `h`).
* Floating-point columns (`latitude`, `longitude`, `temperature_2m`,
  `relative_humidity_2m`) are `Rat`: the code compares them only for exact
  equality, which `Rat` equality models.
* The SQLAlchemy session is modelled by explicit state passing: the working
  store seen by in-call queries (the session autoflushes, so
  `WeatherData.query` sees pending inserts/updates) is threaded through the
  loop, and the persisted store changes only at `db.session.commit()`.
  Commit success is an explicit `commitOk : Bool` parameter; on commit
  failure the code rolls back, so the persisted store stays as it was.
* The outbound HTTP request of `fetch_weather_data` is an
  `Option ApiResponse` parameter (`none` = transport failure).
* Rendering libraries (openpyxl / weasyprint / reportlab / matplotlib) are
  external collaborators; their success or failure is a `Bool` parameter
  where a claim depends on it.
-/

/-- One row of the `weather_data` table (`src/models/weather.py`). -/
structure WeatherData where
  id : Nat
  timestamp : Int
  latitude : Rat
  longitude : Rat
  temperature_2m : Rat
  relative_humidity_2m : Rat
  created_at : Int
deriving DecidableEq, Repr

/-- The persisted table: rows in insertion (rowid) order, plus the next
autoincrement id. -/
structure Store where
  records : List WeatherData
  nextId : Nat
deriving DecidableEq, Repr

/-- A store with no rows. -/
def emptyStore : Store := ⟨[], 1⟩

/-- The `filter_by(timestamp=..., latitude=..., longitude=...)` predicate of
`process_and_store_weather_data`. -/
def matchesTriple (t : Int) (lat lon : Rat) (r : WeatherData) : Bool :=
  decide (r.timestamp = t ∧ r.latitude = lat ∧ r.longitude = lon)

/-- The key of a row that the upsert lookup matches on. -/
def tripleOf (r : WeatherData) : Int × Rat × Rat :=
  (r.timestamp, r.latitude, r.longitude)

/-- The uniqueness invariant of §3 of the spec: at most one row per
(`timestamp`, `latitude`, `longitude`) triple. -/
def TripleUnique (l : List WeatherData) : Prop :=
  (l.map tripleOf).Nodup

instance (l : List WeatherData) : Decidable (TripleUnique l) :=
  inferInstanceAs (Decidable ((l.map tripleOf).Nodup))

/-- Overwrite temperature and humidity of the first row matching the triple,
as the update branch of `process_and_store_weather_data` does on the row
returned by `.first()`. -/
def updateTriple (t : Int) (lat lon : Rat) (temp hum : Rat) :
    List WeatherData → List WeatherData
  | [] => []
  | r :: rs =>
    if matchesTriple t lat lon r then
      { r with temperature_2m := temp, relative_humidity_2m := hum } :: rs
    else
      r :: updateTriple t lat lon temp hum rs

/-- One iteration body of the loop in `process_and_store_weather_data`:
look the triple up; update the found row in place, or add a fresh row
(id from the autoincrement counter, `created_at` defaulted to now). -/
def upsertRecord (lat lon : Rat) (now : Int) (s : Store)
    (t : Int) (temp hum : Rat) : Store :=
  if (s.records.find? (matchesTriple t lat lon)).isSome then
    { s with records := updateTriple t lat lon temp hum s.records }
  else
    { records := s.records ++ [⟨s.nextId, t, lat, lon, temp, hum, now⟩],
      nextId := s.nextId + 1 }

/-- Failure modes of `process_and_store_weather_data`: an uncaught Python
`IndexError` from `temperatures[i]` / `humidities[i]`, or the
`Exception("Failed to store weather data: ...")` raised after rollback. -/
inductive StoreErr where
  | indexError : StoreErr
  | storageError : String → StoreErr
deriving DecidableEq, Repr

/-- The `for i, timestamp_str in enumerate(timestamps)` loop of
`process_and_store_weather_data`. `temps[i]` and `hums[i]` are fetched with
an explicit bounds check (`none` from `getElem?` is Python's `IndexError`);
`humidities[i]` is only read when `temperatures[i]` is not `None`, mirroring
the short-circuit of `if temperatures[i] is None or humidities[i] is None`.
Rows with a `None` temperature or humidity are skipped. -/
def processLoop (lat lon : Rat) (now : Int) (temps hums : List (Option Rat)) :
    Nat → List Int → Store → Except StoreErr Store
  | _, [], s => .ok s
  | i, t :: ts, s =>
    match temps[i]? with
    | none => .error .indexError
    | some none => processLoop lat lon now temps hums (i + 1) ts s
    | some (some temp) =>
      match hums[i]? with
      | none => .error .indexError
      | some none => processLoop lat lon now temps hums (i + 1) ts s
      | some (some hum) =>
        processLoop lat lon now temps hums (i + 1) ts
          (upsertRecord lat lon now s t temp hum)

/-- `WeatherService.process_and_store_weather_data`, the reconcile
operation: run the upsert loop over the three aligned arrays, then
`db.session.commit()`; on commit failure roll back and raise
`Exception("Failed to store weather data: ...")`. The returned store is the
state the session would commit; `commitOk` tells whether the commit
succeeds. -/
def process_and_store_weather_data (times : List Int)
    (temps hums : List (Option Rat)) (lat lon : Rat) (now : Int)
    (commitOk : Bool) (s : Store) : Except StoreErr Store :=
  match processLoop lat lon now temps hums 0 times s with
  | .error e => .error e
  | .ok pending =>
    if commitOk then .ok pending
    else .error (.storageError "Failed to store weather data")

/-- The persisted store after a reconcile call: the committed state on
success, the unchanged original on any failure (rollback / no commit). -/
def persistedAfter (s : Store) : Except StoreErr Store → Store
  | .ok s2 => s2
  | .error _ => s

/-- The items the loop actually upserts, in input order: the same traversal
as `processLoop` but collecting the (timestamp, temperature, humidity)
triples instead of applying them. -/
def collectValid (temps hums : List (Option Rat)) :
    Nat → List Int → Except StoreErr (List (Int × Rat × Rat))
  | _, [] => .ok []
  | i, t :: ts =>
    match temps[i]? with
    | none => .error .indexError
    | some none => collectValid temps hums (i + 1) ts
    | some (some temp) =>
      match hums[i]? with
      | none => .error .indexError
      | some none => collectValid temps hums (i + 1) ts
      | some (some hum) =>
        (collectValid temps hums (i + 1) ts).map
          (fun items => (t, temp, hum) :: items)

/-- Apply a list of collected items to a store, left to right. -/
def applyItems (lat lon : Rat) (now : Int) (items : List (Int × Rat × Rat))
    (s : Store) : Store :=
  items.foldl (fun acc x => upsertRecord lat lon now acc x.1 x.2.1 x.2.2) s

/-- The `order_by(WeatherData.timestamp.asc())` ordering. -/
def recLE (a b : WeatherData) : Prop :=
  a.timestamp ≤ b.timestamp

instance : DecidableRel recLE :=
  fun a b => inferInstanceAs (Decidable (a.timestamp ≤ b.timestamp))

instance : IsTotal WeatherData recLE :=
  ⟨fun a b => Int.le_total a.timestamp b.timestamp⟩

instance : IsTrans WeatherData recLE :=
  ⟨fun _ _ _ h1 h2 => le_trans h1 h2⟩

/-- `WeatherService.get_recent_weather_data`: rows with
`timestamp >= utcnow() - timedelta(hours=hours)`, any location, ordered by
timestamp ascending. A pure read: the store is not modified. -/
def get_recent_weather_data (hours : Int) (now : Int) (s : Store) :
    List WeatherData :=
  List.insertionSort recLE
    (s.records.filter (fun r => decide (now - hours ≤ r.timestamp)))

/-- `WeatherService.get_weather_data_by_location`: the same recency filter
plus exact equality on latitude and longitude, ordered by timestamp
ascending. A pure read: the store is not modified. -/
def get_weather_data_by_location (lat lon : Rat) (hours : Int) (now : Int)
    (s : Store) : List WeatherData :=
  List.insertionSort recLE
    (s.records.filter (fun r =>
      decide (r.latitude = lat ∧ r.longitude = lon ∧
        now - hours ≤ r.timestamp)))

/-- The `hourly` object of an Open-Meteo archive response; each field may be
absent from the JSON. -/
structure HourlyBlock where
  time : Option (List Int)
  temperature_2m : Option (List (Option Rat))
  relative_humidity_2m : Option (List (Option Rat))
deriving DecidableEq, Repr

/-- A parsed archive API response body; `hourly` may be absent. -/
structure ApiResponse where
  hourly : Option HourlyBlock
deriving DecidableEq, Repr

/-- Failure modes of `fetch_weather_data`: a `requests.RequestException`
from the transport, or the `ValueError` for a malformed body. -/
inductive FetchErr where
  | requestFailed : FetchErr
  | invalidResponse : String → FetchErr
deriving DecidableEq, Repr

/-- `WeatherService.fetch_weather_data`, response handling part: the
transport outcome is the `transport` argument (`none` = request failed).
The code checks that `hourly` is present and that each of `time`,
`temperature_2m`, `relative_humidity_2m` is present inside it — it performs
no comparison of the array lengths. -/
def fetch_weather_data (transport : Option ApiResponse) :
    Except FetchErr ApiResponse :=
  match transport with
  | none => .error .requestFailed
  | some data =>
    match data.hourly with
    | none => .error (.invalidResponse "missing hourly data")
    | some hb =>
      if hb.time.isNone then
        .error (.invalidResponse "missing time in hourly data")
      else if hb.temperature_2m.isNone then
        .error (.invalidResponse "missing temperature_2m in hourly data")
      else if hb.relative_humidity_2m.isNone then
        .error (.invalidResponse "missing relative_humidity_2m in hourly data")
      else .ok data

/-- The archive response used to show `fetch` does not compare lengths:
all required fields are present but `temperature_2m` has one entry while
`time` has two. -/
def mismatchedHourly : HourlyBlock :=
  ⟨some [0, 1], some [some 1], some [some 50, some 60]⟩

/-- A full response wrapping `mismatchedHourly`. -/
def mismatchedResponse : ApiResponse :=
  ⟨some mismatchedHourly⟩

/-- Parameter handling of the `GET /weather-data` route
(`src/routes/weather.py`, `get_weather_data`): `hours` defaults to 48
(Flask also substitutes the default when the value does not parse), is
rejected with 400 when `hours <= 0 or hours > 168`; when both coordinates
are supplied they are range-checked, otherwise the unfiltered recent query
runs. Returns (HTTP status, payload rows). -/
def get_weather_data_route (lat lon : Option Rat) (hours : Option Int)
    (now : Int) (s : Store) : Nat × List WeatherData :=
  let h := hours.getD 48
  if h ≤ 0 ∨ 168 < h then (400, [])
  else
    match lat, lon with
    | some la, some lo =>
      if ¬(-90 ≤ la ∧ la ≤ 90) ∨ ¬(-180 ≤ lo ∧ lo ≤ 180) then (400, [])
      else (200, get_weather_data_by_location la lo h now s)
    | _, _ => (200, get_recent_weather_data h now s)

/-- Parameter handling and data lookup of `GET /export/excel`
(`export_excel`): the same validation as `/weather-data`, then 404 when no
rows match, else 200 (the openpyxl rendering, an external collaborator, is
modelled as succeeding). -/
def export_excel_route (lat lon : Option Rat) (hours : Option Int)
    (now : Int) (s : Store) : Nat :=
  let h := hours.getD 48
  if h ≤ 0 ∨ 168 < h then 400
  else
    match lat, lon with
    | some la, some lo =>
      if ¬(-90 ≤ la ∧ la ≤ 90) ∨ ¬(-180 ≤ lo ∧ lo ≤ 180) then 400
      else if (get_weather_data_by_location la lo h now s).isEmpty then 404
      else 200
    | _, _ =>
      if (get_recent_weather_data h now s).isEmpty then 404
      else 200

/-- The rendering stage of `export_pdf`: WeasyPrint is tried first when it
could be imported (`weasyAvailable`) and `write_pdf` succeeds (`weasyOk`);
on either failure the ReportLab fallback runs (`reportlabOk`); only when
that also raises does the route answer 500. -/
def pdfRender (data : List WeatherData)
    (weasyAvailable weasyOk reportlabOk : Bool) : Nat :=
  if data.isEmpty then 404
  else if weasyAvailable && weasyOk then 200
  else if reportlabOk then 200
  else 500

/-- Parameter handling and rendering dispatch of `GET /export/pdf`
(`export_pdf`): the same validation as `/weather-data`, then 404 on an
empty record set, then the two-stage rendering pipeline. -/
def export_pdf_route (lat lon : Option Rat) (hours : Option Int) (now : Int)
    (s : Store) (weasyAvailable weasyOk reportlabOk : Bool) : Nat :=
  let h := hours.getD 48
  if h ≤ 0 ∨ 168 < h then 400
  else
    match lat, lon with
    | some la, some lo =>
      if ¬(-90 ≤ la ∧ la ≤ 90) ∨ ¬(-180 ≤ lo ∧ lo ≤ 180) then 400
      else
        pdfRender (get_weather_data_by_location la lo h now s)
          weasyAvailable weasyOk reportlabOk
    | _, _ =>
      pdfRender (get_recent_weather_data h now s)
        weasyAvailable weasyOk reportlabOk

/-! ## Helper lemmas about the upsert loop -/

/-- When the temperature array is shorter than the part of the time array
still to be walked, the loop hits an out-of-bounds access. -/
theorem processLoop_short (lat lon : Rat) (now : Int)
    (temps hums : List (Option Rat)) :
    ∀ (ts : List Int) (i : Nat) (s : Store), i ≤ temps.length →
      temps.length < i + ts.length →
      processLoop lat lon now temps hums i ts s = .error .indexError := by
  intro ts
  induction ts with
  | nil => intro i s h1 h2; simp at h2; omega
  | cons t ts ih =>
    intro i s h1 h2
    by_cases hi : i < temps.length
    · have hv : temps[i]? = some temps[i] := List.getElem?_eq_getElem hi
      cases ht : temps[i] with
      | none =>
        rw [ht] at hv
        simp only [processLoop, hv]
        exact ih (i + 1) s (by omega) (by simp at h2; omega)
      | some temp =>
        rw [ht] at hv
        cases hh : hums[i]? with
        | none => simp [processLoop, hv, hh]
        | some hv2 =>
          cases hv2 with
          | none =>
            simp only [processLoop, hv, hh]
            exact ih (i + 1) s (by omega) (by simp at h2; omega)
          | some hum =>
            simp only [processLoop, hv, hh]
            exact ih (i + 1) _ (by omega) (by simp at h2; omega)
    · have hnone : temps[i]? = none := by
        apply List.getElem?_eq_none
        omega
      simp [processLoop, hnone]

/-- When both value arrays cover every index of the time array, the loop
never fails. -/
theorem processLoop_ok (lat lon : Rat) (now : Int)
    (temps hums : List (Option Rat)) :
    ∀ (ts : List Int) (i : Nat) (s : Store), i + ts.length ≤ temps.length →
      i + ts.length ≤ hums.length →
      ∃ s2, processLoop lat lon now temps hums i ts s = .ok s2 := by
  intro ts
  induction ts with
  | nil => intro i s _ _; exact ⟨s, rfl⟩
  | cons t ts ih =>
    intro i s h1 h2
    simp only [List.length_cons] at h1 h2
    have hi : i < temps.length := by omega
    have hi2 : i < hums.length := by omega
    have hv : temps[i]? = some temps[i] := List.getElem?_eq_getElem hi
    have hh : hums[i]? = some hums[i] := List.getElem?_eq_getElem hi2
    cases ht : temps[i] with
    | none =>
      rw [ht] at hv
      simp only [processLoop, hv]
      exact ih (i + 1) s (by omega) (by omega)
    | some temp =>
      rw [ht] at hv
      cases hu : hums[i] with
      | none =>
        rw [hu] at hh
        simp only [processLoop, hv, hh]
        exact ih (i + 1) s (by omega) (by omega)
      | some hum =>
        rw [hu] at hh
        simp only [processLoop, hv, hh]
        exact ih (i + 1) _ (by omega) (by omega)

/-! ## Claim theorems: error handling and boundaries -/

/-- C3: a reconcile call is atomic. On any failure the persisted store is
exactly the store from before the call (rollback, no partial writes are
visible); on success the committed store is exactly the full pending state
of the loop, committed in one step; a commit failure surfaces as the
storage error. -/
theorem reconcile_atomic (times : List Int) (temps hums : List (Option Rat))
    (lat lon : Rat) (now : Int) (commitOk : Bool) (s : Store) :
    (∀ e, process_and_store_weather_data times temps hums lat lon now
        commitOk s = .error e →
      persistedAfter s (process_and_store_weather_data times temps hums
        lat lon now commitOk s) = s)
    ∧ (∀ s2, process_and_store_weather_data times temps hums lat lon now
        commitOk s = .ok s2 →
      processLoop lat lon now temps hums 0 times s = .ok s2 ∧
      persistedAfter s (process_and_store_weather_data times temps hums
        lat lon now commitOk s) = s2)
    ∧ (commitOk = false →
      ∀ pending, processLoop lat lon now temps hums 0 times s = .ok pending →
        process_and_store_weather_data times temps hums lat lon now commitOk s
          = .error (.storageError "Failed to store weather data")) := by
  refine ⟨?_, ?_, ?_⟩
  · intro e he
    rw [he]
    rfl
  · intro s2 h2
    refine ⟨?_, by rw [h2]; rfl⟩
    unfold process_and_store_weather_data at h2
    cases hl : processLoop lat lon now temps hums 0 times s with
    | error e => rw [hl] at h2; simp at h2
    | ok pending =>
      rw [hl] at h2
      cases commitOk with
      | false => simp at h2
      | true => simp at h2; exact congrArg Except.ok h2
  · intro hc pending hp
    unfold process_and_store_weather_data
    rw [hp, hc]
    rfl

/-- Witness for `reconcile_atomic`: a concrete failed commit leaves the
empty store untouched and raises the storage error. -/
theorem reconcile_atomic_witness :
    process_and_store_weather_data [0] [some 1] [some 2] 3 4 5 false
      emptyStore = .error (.storageError "Failed to store weather data")
    ∧ persistedAfter emptyStore
        (process_and_store_weather_data [0] [some 1] [some 2] 3 4 5 false
          emptyStore) = emptyStore := by
  have h := reconcile_atomic [0] [some 1] [some 2] 3 4 5 false emptyStore
  have he := h.2.2 rfl ⟨[⟨1, 0, 3, 4, 1, 2, 5⟩], 2⟩ rfl
  exact ⟨he, h.1 _ he⟩

/-- C6 counterexample: `fetch_weather_data` accepts and returns a response
whose `time` array has two entries while `temperature_2m` has one — it
never compares the array lengths, so a misaligned response is NOT rejected
with the invalid-response error. -/
theorem fetch_no_length_check :
    fetch_weather_data (some mismatchedResponse) = .ok mismatchedResponse
    ∧ (mismatchedHourly.time.getD []).length ≠
        (mismatchedHourly.temperature_2m.getD []).length :=
  ⟨rfl, by decide⟩

/-- C6 amended: `fetch_weather_data` succeeds exactly when the transport
succeeded and `hourly`, `time`, `temperature_2m` and
`relative_humidity_2m` are all present; array lengths are not checked, and
on success the response is returned unmodified. -/
theorem fetch_checks_presence_only (transport : Option ApiResponse) :
    ((∃ d, fetch_weather_data transport = .ok d) ↔
      ∃ data hb, transport = some data ∧ data.hourly = some hb ∧
        hb.time.isSome = true ∧ hb.temperature_2m.isSome = true ∧
        hb.relative_humidity_2m.isSome = true)
    ∧ (∀ d, fetch_weather_data transport = .ok d → transport = some d) := by
  constructor
  · cases transport with
    | none => simp [fetch_weather_data]
    | some data =>
      cases hh : data.hourly with
      | none => simp [fetch_weather_data, hh]
      | some hb =>
        simp only [fetch_weather_data, hh]
        by_cases h1 : hb.time.isNone
        · have : hb.time.isSome = false := by
            cases ht : hb.time <;> simp_all
          simp [h1, hh, this]
        · by_cases h2 : hb.temperature_2m.isNone
          · have : hb.temperature_2m.isSome = false := by
              cases ht : hb.temperature_2m <;> simp_all
            simp [h1, h2, hh, this]
          · by_cases h3 : hb.relative_humidity_2m.isNone
            · have : hb.relative_humidity_2m.isSome = false := by
                cases ht : hb.relative_humidity_2m <;> simp_all
              simp [h1, h2, h3, hh, this]
            · have e1 : hb.time.isSome = true := by
                cases ht : hb.time <;> simp_all
              have e2 : hb.temperature_2m.isSome = true := by
                cases ht : hb.temperature_2m <;> simp_all
              have e3 : hb.relative_humidity_2m.isSome = true := by
                cases ht : hb.relative_humidity_2m <;> simp_all
              simp [h1, h2, h3, hh, e1, e2, e3]
  · intro d hd
    cases transport with
    | none => simp [fetch_weather_data] at hd
    | some data =>
      cases hh : data.hourly with
      | none => simp [fetch_weather_data, hh] at hd
      | some hb =>
        simp only [fetch_weather_data, hh] at hd
        split_ifs at hd with h1 h2 h3
        simp_all

/-- Witness for `fetch_checks_presence_only`: a well-formed response is
returned as-is. -/
theorem fetch_checks_presence_only_witness :
    fetch_weather_data (some mismatchedResponse) = .ok mismatchedResponse →
    (some mismatchedResponse : Option ApiResponse) = some mismatchedResponse := by
  exact (fetch_checks_presence_only (some mismatchedResponse)).2 mismatchedResponse

/-- Unfolding of the `/weather-data` route when both coordinates are
supplied. -/
theorem get_weather_data_route_some (la lo : Rat) (hours : Option Int)
    (now : Int) (s : Store) :
    get_weather_data_route (some la) (some lo) hours now s =
      (if (hours.getD 48) ≤ 0 ∨ 168 < (hours.getD 48) then (400, [])
       else if ¬(-90 ≤ la ∧ la ≤ 90) ∨ ¬(-180 ≤ lo ∧ lo ≤ 180) then (400, [])
       else (200, get_weather_data_by_location la lo (hours.getD 48) now s)) :=
  rfl

/-- Unfolding of the `/export/pdf` route when no latitude is supplied. -/
theorem export_pdf_route_nolat (lon : Option Rat) (hours : Option Int)
    (now : Int) (s : Store) (wA wOk rOk : Bool) :
    export_pdf_route none lon hours now s wA wOk rOk =
      (if (hours.getD 48) ≤ 0 ∨ 168 < (hours.getD 48) then 400
       else pdfRender (get_recent_weather_data (hours.getD 48) now s)
         wA wOk rOk) := by
  cases lon <;> rfl

/-- Unfolding of the `/export/pdf` route when no longitude is supplied. -/
theorem export_pdf_route_nolon (la : Rat) (hours : Option Int)
    (now : Int) (s : Store) (wA wOk rOk : Bool) :
    export_pdf_route (some la) none hours now s wA wOk rOk =
      (if (hours.getD 48) ≤ 0 ∨ 168 < (hours.getD 48) then 400
       else pdfRender (get_recent_weather_data (hours.getD 48) now s)
         wA wOk rOk) :=
  rfl

/-- Unfolding of the `/export/pdf` route when both coordinates are
supplied. -/
theorem export_pdf_route_some (la lo : Rat) (hours : Option Int)
    (now : Int) (s : Store) (wA wOk rOk : Bool) :
    export_pdf_route (some la) (some lo) hours now s wA wOk rOk =
      (if (hours.getD 48) ≤ 0 ∨ 168 < (hours.getD 48) then 400
       else if ¬(-90 ≤ la ∧ la ≤ 90) ∨ ¬(-180 ≤ lo ∧ lo ≤ 180) then 400
       else pdfRender
         (get_weather_data_by_location la lo (hours.getD 48) now s)
         wA wOk rOk) :=
  rfl

/-- Every `/export/pdf` response is either a validation 400 or the result
of the two-stage rendering on the queried record set. -/
theorem export_pdf_route_cases (lat lon : Option Rat) (hours : Option Int)
    (now : Int) (s : Store) (wA wOk rOk : Bool) :
    export_pdf_route lat lon hours now s wA wOk rOk = 400
    ∨ ∃ data, export_pdf_route lat lon hours now s wA wOk rOk
        = pdfRender data wA wOk rOk := by
  cases lat with
  | none =>
    rw [export_pdf_route_nolat]
    by_cases hc : (hours.getD 48) ≤ 0 ∨ 168 < (hours.getD 48)
    · rw [if_pos hc]; exact Or.inl rfl
    · rw [if_neg hc]; exact Or.inr ⟨_, rfl⟩
  | some la =>
    cases lon with
    | none =>
      rw [export_pdf_route_nolon]
      by_cases hc : (hours.getD 48) ≤ 0 ∨ 168 < (hours.getD 48)
      · rw [if_pos hc]; exact Or.inl rfl
      · rw [if_neg hc]; exact Or.inr ⟨_, rfl⟩
    | some lo =>
      rw [export_pdf_route_some]
      by_cases hc : (hours.getD 48) ≤ 0 ∨ 168 < (hours.getD 48)
      · rw [if_pos hc]; exact Or.inl rfl
      · rw [if_neg hc]
        by_cases hco : ¬(-90 ≤ la ∧ la ≤ 90) ∨ ¬(-180 ≤ lo ∧ lo ≤ 180)
        · rw [if_pos hco]; exact Or.inl rfl
        · rw [if_neg hco]; exact Or.inr ⟨_, rfl⟩

/-- If the PDF rendering stage does not answer 404, the record set it was
given is non-empty. -/
theorem pdfRender_ne_404 (data : List WeatherData) (wA wOk rOk : Bool)
    (h : pdfRender data wA wOk rOk ≠ 404) : data.isEmpty = false := by
  by_cases he : data.isEmpty = true
  · simp [pdfRender, he] at h
  · simpa using he

/-- On a non-empty record set the rendering stage answers 500 exactly when
WeasyPrint is unavailable or failing AND the ReportLab fallback also fails;
a primary failure with a working fallback yields 200. -/
theorem pdfRender_500_iff (data : List WeatherData) (wA wOk rOk : Bool)
    (hne : data.isEmpty = false) :
    (pdfRender data wA wOk rOk = 500 ↔
      ¬(wA = true ∧ wOk = true) ∧ rOk = false)
    ∧ (¬(wA = true ∧ wOk = true) → rOk = true →
      pdfRender data wA wOk rOk = 200) := by
  cases wA <;> cases wOk <;> cases rOk <;> simp [pdfRender, hne]

/-- C8: parameter validation at the query/export endpoints. `hours=0`,
`hours=169`, `lat=91` (with an in-range `lon`) and `lon=181` (with an
in-range `lat`) are all rejected with 400 at both `/weather-data` and
`/export/excel`; `hours=1` and `hours=168` are accepted; an absent `hours`
behaves exactly as `hours=48`; in general the `hours` value is accepted iff
it lies in `[1,168]`, and supplied coordinates are accepted iff latitude is
in `[-90,90]` and longitude in `[-180,180]`. -/
theorem boundary_param_validation :
    (get_weather_data_route none none (some 0) 0 emptyStore).1 = 400
    ∧ (get_weather_data_route none none (some 169) 0 emptyStore).1 = 400
    ∧ (get_weather_data_route (some 91) (some 0) (some 48) 0 emptyStore).1
        = 400
    ∧ (get_weather_data_route (some 0) (some 181) (some 48) 0 emptyStore).1
        = 400
    ∧ (get_weather_data_route none none (some 1) 0 emptyStore).1 = 200
    ∧ (get_weather_data_route none none (some 168) 0 emptyStore).1 = 200
    ∧ export_excel_route none none (some 0) 0 emptyStore = 400
    ∧ export_excel_route none none (some 169) 0 emptyStore = 400
    ∧ export_excel_route (some 91) (some 0) (some 48) 0 emptyStore = 400
    ∧ export_excel_route (some 0) (some 181) (some 48) 0 emptyStore = 400
    ∧ export_excel_route none none (some 1) 0 emptyStore ≠ 400
    ∧ export_excel_route none none (some 168) 0 emptyStore ≠ 400
    ∧ (∀ now s, get_weather_data_route none none none now s
        = get_weather_data_route none none (some 48) now s)
    ∧ (∀ h : Int, (get_weather_data_route none none (some h) 0
        emptyStore).1 ≠ 400 ↔ 1 ≤ h ∧ h ≤ 168)
    ∧ (∀ la lo : Rat, (get_weather_data_route (some la) (some lo) (some 48)
        0 emptyStore).1 = 200 ↔
        (-90 ≤ la ∧ la ≤ 90) ∧ (-180 ≤ lo ∧ lo ≤ 180)) := by
  refine ⟨by decide, by decide, by decide, by decide, by decide, by decide,
    by decide, by decide, by decide, by decide, by decide, by decide,
    fun now s => rfl, ?_, ?_⟩
  · intro h
    unfold get_weather_data_route
    by_cases hc : h ≤ 0 ∨ 168 < h
    · simp [hc]
      omega
    · simp [hc]
      omega
  · intro la lo
    rw [get_weather_data_route_some, if_neg (by decide)]
    by_cases hc : ¬(-90 ≤ la ∧ la ≤ 90) ∨ ¬(-180 ≤ lo ∧ lo ≤ 180)
    · rw [if_pos hc]
      constructor
      · intro h; exact absurd h (by decide)
      · intro h; exact absurd hc (by tauto)
    · rw [if_neg hc]
      constructor
      · intro _; tauto
      · intro _; rfl

/-- C9: for a request to `/export/pdf` that passes parameter validation
(status is not 400) and finds matching records (status is not 404), the
route answers 500 exactly when the WeasyPrint pipeline is unavailable or
fails AND the ReportLab fallback also fails; when only the primary
pipeline fails, the fallback is attempted and the route answers 200 — the
error is never surfaced on a primary failure alone. -/
theorem export_pdf_fallback (lat lon : Option Rat) (hours : Option Int)
    (now : Int) (s : Store) (wA wOk rOk : Bool)
    (h400 : export_pdf_route lat lon hours now s wA wOk rOk ≠ 400)
    (h404 : export_pdf_route lat lon hours now s wA wOk rOk ≠ 404) :
    (export_pdf_route lat lon hours now s wA wOk rOk = 500 ↔
      ¬(wA = true ∧ wOk = true) ∧ rOk = false)
    ∧ (¬(wA = true ∧ wOk = true) → rOk = true →
      export_pdf_route lat lon hours now s wA wOk rOk = 200) := by
  rcases export_pdf_route_cases lat lon hours now s wA wOk rOk with h | ⟨data, hd⟩
  · exact absurd h h400
  · rw [hd] at h404 ⊢
    exact pdfRender_500_iff data wA wOk rOk (pdfRender_ne_404 data wA wOk rOk h404)

/-- Witness for `export_pdf_fallback`: on a store with one recent row,
with WeasyPrint unavailable and ReportLab succeeding, the route answers
200. -/
theorem export_pdf_fallback_witness :
    export_pdf_route none none none 0 ⟨[⟨1, 0, 3, 4, 1, 2, 5⟩], 2⟩
      false false true = 200 := by
  have h := export_pdf_fallback none none none 0
    ⟨[⟨1, 0, 3, 4, 1, 2, 5⟩], 2⟩ false false true
    (by decide) (by decide)
  exact h.2 (by simp) rfl

/-- C10 counterexample: a series whose time array (two entries) is strictly
longer than its humidity array (empty) on which
`process_and_store_weather_data` does NOT fail: both temperatures are
`None`, so the short-circuit in
`if temperatures[i] is None or humidities[i] is None` never reads
`humidities[i]` and the call completes successfully. -/
theorem reconcile_oob_counterexample :
    ([] : List (Option Rat)).length < ([0, 1] : List Int).length
    ∧ process_and_store_weather_data [0, 1] [none, none] [] 1 2 0 true
        emptyStore = .ok emptyStore :=
  ⟨by decide, rfl⟩

/-- C10 amended: the loop of `process_and_store_weather_data` indexes
`temperatures[i]` for every index of the time array and `humidities[i]`
for every such index with a non-null temperature, with no length check.
If the temperature array is strictly shorter than the time array the call
always fails with the uncaught out-of-bounds error (never the storage
error); under the precondition that both value arrays are at least as long
as the time array, the indexing always succeeds and any failure is the
storage error. -/
theorem reconcile_index_precondition (times : List Int)
    (temps hums : List (Option Rat)) (lat lon : Rat) (now : Int)
    (commitOk : Bool) (s : Store) :
    (temps.length < times.length →
      process_and_store_weather_data times temps hums lat lon now commitOk s
        = .error .indexError)
    ∧ (times.length ≤ temps.length → times.length ≤ hums.length →
      ∀ e, process_and_store_weather_data times temps hums lat lon now
          commitOk s = .error e →
        e = .storageError "Failed to store weather data") := by
  constructor
  · intro hlt
    unfold process_and_store_weather_data
    rw [processLoop_short lat lon now temps hums times 0 s (Nat.zero_le _)
      (by omega)]
  · intro h1 h2 e he
    obtain ⟨s2, hs2⟩ := processLoop_ok lat lon now temps hums times 0 s
      (by omega) (by omega)
    unfold process_and_store_weather_data at he
    rw [hs2] at he
    cases commitOk with
    | false => simp at he; exact he.symm
    | true => simp at he

/-- Witness for `reconcile_index_precondition`: a short temperature array
produces the out-of-bounds error; aligned arrays with a failing commit
produce the storage error. -/
theorem reconcile_index_precondition_witness :
    process_and_store_weather_data [0, 1] [some 1] [some 2, some 3] 1 2 0
      true emptyStore = .error .indexError
    ∧ (StoreErr.storageError "Failed to store weather data"
        = .storageError "Failed to store weather data") := by
  constructor
  · exact (reconcile_index_precondition [0, 1] [some 1] [some 2, some 3]
      1 2 0 true emptyStore).1 (by decide)
  · exact (reconcile_index_precondition [0] [some 1] [some 2] 1 2 0 false
      emptyStore).2 (by decide) (by decide) _ rfl

/-! ## The upsert loop as collect-then-apply -/

/-- The loop is the item collection followed by the left fold of upserts;
in particular whether the loop fails does not depend on the store. -/
theorem processLoop_eq_collect (lat lon : Rat) (now : Int)
    (temps hums : List (Option Rat)) :
    ∀ (ts : List Int) (i : Nat) (s : Store),
      processLoop lat lon now temps hums i ts s =
        (collectValid temps hums i ts).map
          (fun items => applyItems lat lon now items s) := by
  intro ts
  induction ts with
  | nil => intro i s; rfl
  | cons t ts ih =>
    intro i s
    simp only [processLoop, collectValid]
    cases temps[i]? with
    | none => rfl
    | some tv =>
      cases tv with
      | none => exact ih (i + 1) s
      | some temp =>
        cases hums[i]? with
        | none => rfl
        | some hv =>
          cases hv with
          | none => exact ih (i + 1) s
          | some hum =>
            show processLoop lat lon now temps hums (i + 1) ts
                (upsertRecord lat lon now s t temp hum)
              = Except.map (fun items => applyItems lat lon now items s)
                  (Except.map (fun items => (t, temp, hum) :: items)
                    (collectValid temps hums (i + 1) ts))
            rw [ih (i + 1) (upsertRecord lat lon now s t temp hum)]
            cases collectValid temps hums (i + 1) ts with
            | error e => rfl
            | ok items => rfl

/-! ## Basic lemmas about the triple match and the update -/

/-- The match predicate is equality of key triples. -/
theorem matchesTriple_iff (t : Int) (lat lon : Rat) (r : WeatherData) :
    matchesTriple t lat lon r = true ↔ tripleOf r = (t, lat, lon) := by
  simp [matchesTriple, tripleOf, Prod.ext_iff]

/-- Components of a successful match. -/
theorem matchesTriple_elim {t : Int} {lat lon : Rat} {r : WeatherData}
    (hm : matchesTriple t lat lon r = true) :
    r.timestamp = t ∧ r.latitude = lat ∧ r.longitude = lon :=
  of_decide_eq_true hm

/-- A row with a different timestamp never matches. -/
theorem matchesTriple_ne_timestamp {t : Int} {lat lon : Rat}
    {r : WeatherData} (hne : r.timestamp ≠ t) :
    matchesTriple t lat lon r = false :=
  decide_eq_false fun hc => hne hc.1

/-- Overwriting temperature and humidity never changes what a row
matches. -/
theorem matchesTriple_update (t2 : Int) (lat2 lon2 : Rat) (v h : Rat)
    (r : WeatherData) :
    matchesTriple t2 lat2 lon2
      { r with temperature_2m := v, relative_humidity_2m := h }
      = matchesTriple t2 lat2 lon2 r := rfl

/-- The in-place update keeps every key triple (and so ids, timestamps and
coordinates, positions and length) unchanged. -/
theorem updateTriple_map_tripleOf (t : Int) (lat lon : Rat) (v h : Rat) :
    ∀ l : List WeatherData,
      (updateTriple t lat lon v h l).map tripleOf = l.map tripleOf := by
  intro l
  induction l with
  | nil => rfl
  | cons r rs ih =>
    by_cases hm : matchesTriple t lat lon r
    · simp [updateTriple, hm, tripleOf]
    · simp [updateTriple, hm, ih]

/-- The in-place update preserves the number of rows. -/
theorem updateTriple_length (t : Int) (lat lon : Rat) (v h : Rat)
    (l : List WeatherData) :
    (updateTriple t lat lon v h l).length = l.length := by
  have := congrArg List.length (updateTriple_map_tripleOf t lat lon v h l)
  simpa using this

/-- Whether some row matches a triple only depends on the key triples. -/
theorem find?_isSome_iff_mem_map (t : Int) (lat lon : Rat)
    (l : List WeatherData) :
    (l.find? (matchesTriple t lat lon)).isSome = true ↔
      (t, lat, lon) ∈ l.map tripleOf := by
  rw [List.find?_isSome]
  constructor
  · rintro ⟨r, hr, hm⟩
    exact List.mem_map.mpr ⟨r, hr, (matchesTriple_iff t lat lon r).mp hm⟩
  · intro hmem
    obtain ⟨r, hr, he⟩ := List.mem_map.mp hmem
    exact ⟨r, hr, (matchesTriple_iff t lat lon r).mpr he⟩

/-- Appending a non-matching row does not change the first match. -/
theorem find?_append_not_matching (p : WeatherData → Bool) (x : WeatherData)
    (hx : p x = false) :
    ∀ l : List WeatherData, (l ++ [x]).find? p = l.find? p := by
  intro l
  induction l with
  | nil => simp [List.find?, hx]
  | cons r rs ih =>
    by_cases hr : p r
    · simp [List.find?_cons_of_pos _ hr]
    · simp only [List.cons_append, List.find?_cons_of_neg _ hr, ih]

/-- Updating the rows of one triple does not change the first match of a
different triple. -/
theorem find?_updateTriple_other (t2 t : Int) (lat lon : Rat) (v h : Rat)
    (hne : t2 ≠ t) :
    ∀ l : List WeatherData,
      (updateTriple t2 lat lon v h l).find? (matchesTriple t lat lon)
        = l.find? (matchesTriple t lat lon) := by
  intro l
  induction l with
  | nil => rfl
  | cons r rs ih =>
    by_cases hm2 : matchesTriple t2 lat lon r
    · have hrt : r.timestamp = t2 := (matchesTriple_elim hm2).1
      have h1 : matchesTriple t lat lon
          { r with temperature_2m := v, relative_humidity_2m := h }
            = false := by
        rw [matchesTriple_update]
        exact matchesTriple_ne_timestamp (by rw [hrt]; exact hne)
      have h2 : matchesTriple t lat lon r = false :=
        matchesTriple_ne_timestamp (by rw [hrt]; exact hne)
      unfold updateTriple
      rw [if_pos hm2, List.find?_cons_of_neg _ (by simp [h1]),
        List.find?_cons_of_neg _ (by simp [h2])]
    · unfold updateTriple
      rw [if_neg hm2]
      by_cases hm : matchesTriple t lat lon r
      · rw [List.find?_cons_of_pos _ hm, List.find?_cons_of_pos _ hm]
      · rw [List.find?_cons_of_neg _ hm, List.find?_cons_of_neg _ hm]
        exact ih

/-- After updating a triple that is present, the first match of that triple
carries the written values. -/
theorem find?_updateTriple_self (t : Int) (lat lon : Rat) (v h : Rat) :
    ∀ l : List WeatherData,
      (l.find? (matchesTriple t lat lon)).isSome = true →
      ∃ r0, (updateTriple t lat lon v h l).find? (matchesTriple t lat lon)
          = some r0 ∧ r0.temperature_2m = v ∧ r0.relative_humidity_2m = h := by
  intro l
  induction l with
  | nil => intro hs; simp [List.find?] at hs
  | cons r rs ih =>
    intro hs
    by_cases hm : matchesTriple t lat lon r
    · refine ⟨{ r with temperature_2m := v, relative_humidity_2m := h },
        ?_, rfl, rfl⟩
      unfold updateTriple
      rw [if_pos hm]
      apply List.find?_cons_of_pos
      rw [matchesTriple_update]
      exact hm
    · unfold updateTriple
      rw [if_neg hm, List.find?_cons_of_neg _ hm]
      apply ih
      rwa [List.find?_cons_of_neg _ hm] at hs

/-- The freshly inserted row of an upsert. -/
def freshRecord (lat lon : Rat) (now : Int) (s : Store) (t : Int)
    (temp hum : Rat) : WeatherData :=
  ⟨s.nextId, t, lat, lon, temp, hum, now⟩

/-- An upsert of a different timestamp does not change the first match of
a triple. -/
theorem find?_upsertRecord_other (lat lon : Rat) (now : Int) (s : Store)
    (t2 : Int) (v h : Rat) (t : Int) (hne : t2 ≠ t) :
    (upsertRecord lat lon now s t2 v h).records.find?
        (matchesTriple t lat lon)
      = s.records.find? (matchesTriple t lat lon) := by
  unfold upsertRecord
  by_cases hs : (s.records.find? (matchesTriple t2 lat lon)).isSome
  · rw [if_pos hs]
    exact find?_updateTriple_other t2 t lat lon v h hne s.records
  · rw [if_neg hs]
    exact find?_append_not_matching _ _
      (matchesTriple_ne_timestamp (show t2 ≠ t from hne)) s.records

/-- After an upsert, the upserted triple is present and its first match
carries the upserted values. -/
theorem find?_upsertRecord_self (lat lon : Rat) (now : Int) (s : Store)
    (t : Int) (v h : Rat) :
    ∃ r0, (upsertRecord lat lon now s t v h).records.find?
        (matchesTriple t lat lon) = some r0
      ∧ r0.temperature_2m = v ∧ r0.relative_humidity_2m = h := by
  unfold upsertRecord
  by_cases hs : (s.records.find? (matchesTriple t lat lon)).isSome
  · rw [if_pos hs]
    exact find?_updateTriple_self t lat lon v h s.records hs
  · rw [if_neg hs]
    have hnone : s.records.find? (matchesTriple t lat lon) = none := by
      cases hh : s.records.find? (matchesTriple t lat lon) with
      | none => rfl
      | some r => rw [hh] at hs; simp at hs
    refine ⟨⟨s.nextId, t, lat, lon, v, h, now⟩, ?_, rfl, rfl⟩
    rw [List.find?_append, hnone]
    simp [List.find?, matchesTriple]

/-! ## Triple uniqueness preservation -/

/-- The in-place update preserves the uniqueness invariant. -/
theorem TripleUnique_updateTriple (t : Int) (lat lon : Rat) (v h : Rat)
    (l : List WeatherData) (hInv : TripleUnique l) :
    TripleUnique (updateTriple t lat lon v h l) := by
  unfold TripleUnique at *
  rwa [updateTriple_map_tripleOf]

/-- One upsert step preserves the uniqueness invariant: it inserts only
when the lookup found no row for the triple. -/
theorem TripleUnique_upsertRecord (lat lon : Rat) (now : Int) (s : Store)
    (t : Int) (v h : Rat) (hInv : TripleUnique s.records) :
    TripleUnique (upsertRecord lat lon now s t v h).records := by
  unfold upsertRecord
  by_cases hs : (s.records.find? (matchesTriple t lat lon)).isSome
  · rw [if_pos hs]
    exact TripleUnique_updateTriple t lat lon v h s.records hInv
  · rw [if_neg hs]
    unfold TripleUnique at *
    rw [List.map_append, List.nodup_append]
    refine ⟨hInv, List.nodup_singleton _, ?_⟩
    intro x hx hx2
    simp only [List.map_cons, List.map_nil, List.mem_singleton] at hx2
    subst hx2
    exact hs ((find?_isSome_iff_mem_map t lat lon s.records).mpr hx)

/-- The whole upsert fold preserves the uniqueness invariant. -/
theorem TripleUnique_applyItems (lat lon : Rat) (now : Int) :
    ∀ (items : List (Int × Rat × Rat)) (s : Store),
      TripleUnique s.records →
      TripleUnique (applyItems lat lon now items s).records := by
  intro items
  induction items with
  | nil => intro s hs; exact hs
  | cons x xs ih =>
    intro s hs
    exact ih _ (TripleUnique_upsertRecord lat lon now s x.1 x.2.1 x.2.2 hs)

/-- A sorted filtering of a store with unique triples again has unique
triples. -/
theorem TripleUnique_sortedFilter (p : WeatherData → Bool) (s : Store)
    (hInv : TripleUnique s.records) :
    TripleUnique (List.insertionSort recLE (s.records.filter p)) := by
  unfold TripleUnique at *
  have hperm : List.Perm (List.insertionSort recLE (s.records.filter p))
      (s.records.filter p) :=
    List.perm_insertionSort recLE _
  rw [(hperm.map tripleOf).nodup_iff]
  exact hInv.sublist ((List.filter_sublist s.records).map tripleOf)

/-- C1: every core operation preserves the invariant that the store has at
most one row per (timestamp, latitude, longitude) triple. Starting from a
store satisfying the invariant, the persisted store after any reconcile
call (committed or rolled back) still satisfies it, and the row lists
returned by `recent` and `byLocation` — which are pure reads and by
construction do not modify the store — never hold two rows for one
triple. -/
theorem core_ops_preserve_triple_uniqueness (times : List Int)
    (temps hums : List (Option Rat)) (lat lon : Rat) (now : Int)
    (commitOk : Bool) (s : Store) (hours now2 : Int) (lat2 lon2 : Rat)
    (hInv : TripleUnique s.records) :
    TripleUnique (persistedAfter s (process_and_store_weather_data times
      temps hums lat lon now commitOk s)).records
    ∧ TripleUnique (get_recent_weather_data hours now2 s)
    ∧ TripleUnique (get_weather_data_by_location lat2 lon2 hours now2 s) := by
  refine ⟨?_, TripleUnique_sortedFilter _ s hInv,
    TripleUnique_sortedFilter _ s hInv⟩
  unfold process_and_store_weather_data
  cases hl : processLoop lat lon now temps hums 0 times s with
  | error e => exact hInv
  | ok pending =>
    cases commitOk with
    | false => exact hInv
    | true =>
      rw [processLoop_eq_collect] at hl
      cases hc : collectValid temps hums 0 times with
      | error e => rw [hc] at hl; simp [Except.map] at hl
      | ok items =>
        rw [hc] at hl
        have hp : applyItems lat lon now items s = pending := by
          simpa [Except.map] using hl
        show TripleUnique pending.records
        rw [← hp]
        exact TripleUnique_applyItems lat lon now items s hInv

/-- Witness for `core_ops_preserve_triple_uniqueness` at a concrete store
and series. -/
theorem core_ops_preserve_triple_uniqueness_witness :
    TripleUnique emptyStore.records
    ∧ (TripleUnique (persistedAfter emptyStore
        (process_and_store_weather_data [0] [some 1] [some 2] 3 4 5 true
          emptyStore)).records
      ∧ TripleUnique (get_recent_weather_data 48 0 emptyStore)
      ∧ TripleUnique (get_weather_data_by_location 3 4 48 0 emptyStore)) :=
  ⟨by decide, core_ops_preserve_triple_uniqueness [0] [some 1] [some 2]
    3 4 5 true emptyStore 48 0 3 4 (by decide)⟩

/-- C7: `recent` returns exactly the rows passing the recency cutoff,
`byLocation` exactly the rows passing the same cutoff and matching both
coordinates by exact equality, and both results are sorted non-decreasing
by timestamp. Both operations are pure reads: they are functions of the
store and return only a row list, so the store is unmodified by
construction. -/
theorem query_layer_correct (hours now : Int) (s : Store) (lat lon : Rat) :
    (∀ r, r ∈ get_recent_weather_data hours now s ↔
      r ∈ s.records ∧ now - hours ≤ r.timestamp)
    ∧ List.Sorted recLE (get_recent_weather_data hours now s)
    ∧ (∀ r, r ∈ get_weather_data_by_location lat lon hours now s ↔
      r ∈ s.records ∧ r.latitude = lat ∧ r.longitude = lon ∧
        now - hours ≤ r.timestamp)
    ∧ List.Sorted recLE (get_weather_data_by_location lat lon hours now s) := by
  refine ⟨?_, List.sorted_insertionSort recLE _, ?_,
    List.sorted_insertionSort recLE _⟩
  · intro r
    unfold get_recent_weather_data
    rw [(List.perm_insertionSort recLE _).mem_iff, List.mem_filter]
    simp
  · intro r
    unfold get_weather_data_by_location
    rw [(List.perm_insertionSort recLE _).mem_iff, List.mem_filter]
    simp

/-! ## Idempotence machinery

The second reconcile run of an idempotence argument re-writes values that a
later duplicate item may overwrite again. `DiffAtFirst t lat lon l l2`
captures the intermediate states: the two row lists agree everywhere
except possibly in the measured values (temperature/humidity) of the first
row matching the triple `(t, lat, lon)`; key triples, ids and creation
times agree everywhere. -/

/-- Row lists that differ at most in the measured values of the first row
matching the given triple. -/
inductive DiffAtFirst (t : Int) (lat lon : Rat) :
    List WeatherData → List WeatherData → Prop
  | nil : DiffAtFirst t lat lon [] []
  | headMatch (r r2 : WeatherData) (l : List WeatherData) :
      matchesTriple t lat lon r = true →
      r.id = r2.id → r.timestamp = r2.timestamp →
      r.latitude = r2.latitude → r.longitude = r2.longitude →
      r.created_at = r2.created_at →
      DiffAtFirst t lat lon (r :: l) (r2 :: l)
  | headSkip (r : WeatherData) (l l2 : List WeatherData) :
      matchesTriple t lat lon r = false →
      DiffAtFirst t lat lon l l2 →
      DiffAtFirst t lat lon (r :: l) (r :: l2)

/-- Matching only looks at the key fields. -/
theorem matchesTriple_congr {r r2 : WeatherData} (t2 : Int) (lat2 lon2 : Rat)
    (ht : r.timestamp = r2.timestamp) (hla : r.latitude = r2.latitude)
    (hlo : r.longitude = r2.longitude) :
    matchesTriple t2 lat2 lon2 r = matchesTriple t2 lat2 lon2 r2 := by
  simp [matchesTriple, ht, hla, hlo]

/-- `DiffAtFirst` is reflexive. -/
theorem DiffAtFirst.refl (t : Int) (lat lon : Rat) :
    ∀ l : List WeatherData, DiffAtFirst t lat lon l l := by
  intro l
  induction l with
  | nil => exact .nil
  | cons r rs ih =>
    by_cases hm : matchesTriple t lat lon r
    · exact .headMatch r r rs hm rfl rfl rfl rfl rfl
    · exact .headSkip r rs rs (by simpa using hm) ih

/-- Appending the same suffix preserves `DiffAtFirst`. -/
theorem DiffAtFirst.append_right (t : Int) (lat lon : Rat)
    (m : List WeatherData) {l l2 : List WeatherData}
    (hd : DiffAtFirst t lat lon l l2) :
    DiffAtFirst t lat lon (l ++ m) (l2 ++ m) := by
  induction hd with
  | nil => exact DiffAtFirst.refl t lat lon m
  | headMatch r r2 l hm h1 h2 h3 h4 h5 =>
    exact .headMatch r r2 (l ++ m) hm h1 h2 h3 h4 h5
  | headSkip r l l2 hm hd ih => exact .headSkip r _ _ hm ih

/-- Lists related by `DiffAtFirst` find matches for the same triples. -/
theorem DiffAtFirst.find?_isSome_eq (t : Int) (lat lon : Rat) (t2 : Int)
    {l l2 : List WeatherData} (hd : DiffAtFirst t lat lon l l2) :
    (l.find? (matchesTriple t2 lat lon)).isSome
      = (l2.find? (matchesTriple t2 lat lon)).isSome := by
  induction hd with
  | nil => rfl
  | headMatch r r2 l hm h1 h2 h3 h4 h5 =>
    have hc := matchesTriple_congr t2 lat lon h2 h3 h4
    by_cases hm2 : matchesTriple t2 lat lon r
    · rw [List.find?_cons_of_pos _ hm2,
        List.find?_cons_of_pos _ (by rw [← hc]; exact hm2)]
      rfl
    · rw [List.find?_cons_of_neg _ hm2,
        List.find?_cons_of_neg _ (by rw [← hc]; exact hm2)]
  | headSkip r l l2 hm hd ih =>
    by_cases hm2 : matchesTriple t2 lat lon r
    · rw [List.find?_cons_of_pos _ hm2, List.find?_cons_of_pos _ hm2]
    · rw [List.find?_cons_of_neg _ hm2, List.find?_cons_of_neg _ hm2]
      exact ih

/-- When the triple has no match at all, `DiffAtFirst` collapses to
equality. -/
theorem DiffAtFirst.eq_of_not_found (t : Int) (lat lon : Rat)
    {l l2 : List WeatherData} (hd : DiffAtFirst t lat lon l l2)
    (hn : l.find? (matchesTriple t lat lon) = none) : l = l2 := by
  induction hd with
  | nil => rfl
  | headMatch r r2 l hm h1 h2 h3 h4 h5 =>
    rw [List.find?_cons_of_pos _ hm] at hn
    exact absurd hn (by simp)
  | headSkip r l l2 hm hd ih =>
    rw [List.find?_cons_of_neg _ (by simp [hm])] at hn
    rw [ih hn]

/-- Updating the diverging triple erases the divergence. -/
theorem DiffAtFirst.updateTriple_eq (t : Int) (lat lon : Rat) (v h : Rat)
    {l l2 : List WeatherData} (hd : DiffAtFirst t lat lon l l2) :
    updateTriple t lat lon v h l = updateTriple t lat lon v h l2 := by
  induction hd with
  | nil => rfl
  | headMatch r r2 l hm h1 h2 h3 h4 h5 =>
    have hm2 : matchesTriple t lat lon r2 = true := by
      rw [← matchesTriple_congr t lat lon h2 h3 h4]
      exact hm
    unfold updateTriple
    rw [if_pos hm, if_pos hm2]
    cases r
    cases r2
    simp_all
  | headSkip r l l2 hm hd ih =>
    unfold updateTriple
    rw [if_neg (by simp [hm]), if_neg (by simp [hm])]
    rw [ih]

/-- Updating any other triple preserves the divergence. -/
theorem DiffAtFirst.updateTriple_other (t : Int) (lat lon : Rat)
    (t2 : Int) (v h : Rat) (hne : t2 ≠ t)
    {l l2 : List WeatherData} (hd : DiffAtFirst t lat lon l l2) :
    DiffAtFirst t lat lon (updateTriple t2 lat lon v h l)
      (updateTriple t2 lat lon v h l2) := by
  induction hd with
  | nil => exact .nil
  | headMatch r r2 l hm h1 h2 h3 h4 h5 =>
    have hrt : r.timestamp = t := (matchesTriple_elim hm).1
    have hm1 : matchesTriple t2 lat lon r = false :=
      matchesTriple_ne_timestamp (by rw [hrt]; exact Ne.symm hne)
    have hm2 : matchesTriple t2 lat lon r2 = false := by
      rw [← matchesTriple_congr t2 lat lon h2 h3 h4]
      exact hm1
    unfold updateTriple
    rw [if_neg (by simp [hm1]), if_neg (by simp [hm2])]
    exact .headMatch r r2 _ hm h1 h2 h3 h4 h5
  | headSkip r l l2 hm hd ih =>
    by_cases hm2 : matchesTriple t2 lat lon r
    · unfold updateTriple
      rw [if_pos hm2, if_pos hm2]
      exact .headSkip _ l l2 (by rw [matchesTriple_update]; exact hm) hd
    · unfold updateTriple
      rw [if_neg hm2, if_neg hm2]
      exact .headSkip r _ _ hm ih

/-- The update written back by the second run diverges from the settled
store at most at the first match of its own triple. -/
theorem DiffAtFirst.updateTriple_self (t : Int) (lat lon : Rat)
    (v h : Rat) :
    ∀ l : List WeatherData,
      DiffAtFirst t lat lon (updateTriple t lat lon v h l) l := by
  intro l
  induction l with
  | nil => exact .nil
  | cons r rs ih =>
    by_cases hm : matchesTriple t lat lon r
    · unfold updateTriple
      rw [if_pos hm]
      exact .headMatch _ r rs (by rw [matchesTriple_update]; exact hm)
        rfl rfl rfl rfl rfl
    · unfold updateTriple
      rw [if_neg hm]
      exact .headSkip r _ _ (by simpa using hm) ih

/-- An upsert of a different timestamp preserves the divergence and keeps
the id counters in lockstep. -/
theorem DiffAtFirst.upsert_other (t : Int) (lat lon : Rat) (now : Int)
    (t2 : Int) (v h : Rat) (hne : t2 ≠ t) {s s2 : Store}
    (hd : DiffAtFirst t lat lon s.records s2.records)
    (hn : s.nextId = s2.nextId) :
    DiffAtFirst t lat lon (upsertRecord lat lon now s t2 v h).records
        (upsertRecord lat lon now s2 t2 v h).records
    ∧ (upsertRecord lat lon now s t2 v h).nextId
        = (upsertRecord lat lon now s2 t2 v h).nextId := by
  have hfs := DiffAtFirst.find?_isSome_eq t lat lon t2 hd
  unfold upsertRecord
  by_cases hs : (s.records.find? (matchesTriple t2 lat lon)).isSome
  · rw [if_pos hs, if_pos (by rw [← hfs]; exact hs)]
    exact ⟨DiffAtFirst.updateTriple_other t lat lon t2 v h hne hd, hn⟩
  · rw [if_neg hs, if_neg (by rw [← hfs]; exact hs)]
    constructor
    · show DiffAtFirst t lat lon (s.records ++ [⟨s.nextId, t2, lat, lon, v, h, now⟩])
        (s2.records ++ [⟨s2.nextId, t2, lat, lon, v, h, now⟩])
      rw [hn]
      exact DiffAtFirst.append_right t lat lon _ hd
    · show s.nextId + 1 = s2.nextId + 1
      rw [hn]

/-- Folding the remaining items over two diverging stores gives equal
results as soon as some remaining item re-writes the diverging triple. -/
theorem applyItems_diff (t : Int) (lat lon : Rat) (now : Int) :
    ∀ (xs : List (Int × Rat × Rat)) (s s2 : Store),
      DiffAtFirst t lat lon s.records s2.records →
      s.nextId = s2.nextId →
      (∃ y ∈ xs, y.1 = t) →
      applyItems lat lon now xs s = applyItems lat lon now xs s2 := by
  intro xs
  induction xs with
  | nil =>
    intro s s2 hd hn hy
    obtain ⟨y, hym, _⟩ := hy
    simp at hym
  | cons x xs ih =>
    intro s s2 hd hn hy
    by_cases hx : x.1 = t
    · have hstep : upsertRecord lat lon now s x.1 x.2.1 x.2.2
          = upsertRecord lat lon now s2 x.1 x.2.1 x.2.2 := by
        subst hx
        have hfs := DiffAtFirst.find?_isSome_eq x.1 lat lon x.1 hd
        unfold upsertRecord
        by_cases hs : (s.records.find? (matchesTriple x.1 lat lon)).isSome
        · rw [if_pos hs, if_pos (by rw [← hfs]; exact hs)]
          rw [DiffAtFirst.updateTriple_eq x.1 lat lon x.2.1 x.2.2 hd, hn]
        · rw [if_neg hs, if_neg (by rw [← hfs]; exact hs)]
          have hnone : s.records.find? (matchesTriple x.1 lat lon) = none := by
            cases hq : s.records.find? (matchesTriple x.1 lat lon) with
            | none => rfl
            | some r => rw [hq] at hs; simp at hs
          rw [DiffAtFirst.eq_of_not_found x.1 lat lon hd hnone, hn]
      show applyItems lat lon now xs
          (upsertRecord lat lon now s x.1 x.2.1 x.2.2)
        = applyItems lat lon now xs
            (upsertRecord lat lon now s2 x.1 x.2.1 x.2.2)
      rw [hstep]
    · have hstep := DiffAtFirst.upsert_other t lat lon now x.1 x.2.1 x.2.2
        hx hd hn
      have hmem : ∃ y ∈ xs, y.1 = t := by
        obtain ⟨y, hym, hyt⟩ := hy
        cases List.mem_cons.mp hym with
        | inl he => exact absurd (he ▸ hyt) hx
        | inr hm => exact ⟨y, hm, hyt⟩
      exact ih _ _ hstep.1 hstep.2 hmem

/-- The upsert fold preserves presence of a triple. -/
theorem find?_isSome_applyItems (lat lon : Rat) (now : Int) :
    ∀ (xs : List (Int × Rat × Rat)) (s : Store) (t : Int),
      (s.records.find? (matchesTriple t lat lon)).isSome = true →
      ((applyItems lat lon now xs s).records.find?
        (matchesTriple t lat lon)).isSome = true := by
  intro xs
  induction xs with
  | nil => intro s t hs; exact hs
  | cons x xs ih =>
    intro s t hs
    apply ih
    by_cases hx : x.1 = t
    · obtain ⟨r0, hr0, _, _⟩ :=
        find?_upsertRecord_self lat lon now s x.1 x.2.1 x.2.2
      rw [← hx, hr0]
      rfl
    · rw [find?_upsertRecord_other lat lon now s x.1 x.2.1 x.2.2 t hx]
      exact hs

/-- A fold whose items never touch the triple leaves its first match
untouched. -/
theorem find?_applyItems_notin (lat lon : Rat) (now : Int) (t : Int) :
    ∀ (xs : List (Int × Rat × Rat)) (s : Store),
      (∀ y ∈ xs, y.1 ≠ t) →
      (applyItems lat lon now xs s).records.find? (matchesTriple t lat lon)
        = s.records.find? (matchesTriple t lat lon) := by
  intro xs
  induction xs with
  | nil => intro s _; rfl
  | cons x xs ih =>
    intro s hy
    have hx : x.1 ≠ t := hy x (List.mem_cons_self x xs)
    show (applyItems lat lon now xs
        (upsertRecord lat lon now s x.1 x.2.1 x.2.2)).records.find?
          (matchesTriple t lat lon)
      = s.records.find? (matchesTriple t lat lon)
    rw [ih _ (fun y hym => hy y (List.mem_cons_of_mem x hym))]
    exact find?_upsertRecord_other lat lon now s x.1 x.2.1 x.2.2 t hx

/-- Re-writing the first match with its current values is a no-op. -/
theorem updateTriple_id_of_values (t : Int) (lat lon : Rat) (v h : Rat) :
    ∀ (l : List WeatherData) (r : WeatherData),
      l.find? (matchesTriple t lat lon) = some r →
      r.temperature_2m = v → r.relative_humidity_2m = h →
      updateTriple t lat lon v h l = l := by
  intro l
  induction l with
  | nil => intro r hr _ _; simp [List.find?] at hr
  | cons a rs ih =>
    intro r hr hv hh
    by_cases hm : matchesTriple t lat lon a
    · rw [List.find?_cons_of_pos _ hm] at hr
      injection hr with har
      subst har
      unfold updateTriple
      rw [if_pos hm]
      cases a
      simp_all
    · rw [List.find?_cons_of_neg _ hm] at hr
      unfold updateTriple
      rw [if_neg hm]
      rw [ih r hr hv hh]

/-- Core idempotence of the upsert fold: running the same item list a
second time (with any later ingestion instant) leaves the store unchanged:
the second run only updates, and every value it writes is re-written to
the settled value by the last remaining occurrence of its timestamp. -/
theorem applyItems_idem (lat lon : Rat) (now now2 : Int) :
    ∀ (items : List (Int × Rat × Rat)) (s : Store),
      applyItems lat lon now2 items (applyItems lat lon now items s)
        = applyItems lat lon now items s := by
  intro items
  induction items with
  | nil => intro s; rfl
  | cons x xs ih =>
    intro s
    show applyItems lat lon now2 xs
        (upsertRecord lat lon now2
          (applyItems lat lon now xs
            (upsertRecord lat lon now s x.1 x.2.1 x.2.2)) x.1 x.2.1 x.2.2)
      = applyItems lat lon now xs (upsertRecord lat lon now s x.1 x.2.1 x.2.2)
    set m := applyItems lat lon now xs
      (upsertRecord lat lon now s x.1 x.2.1 x.2.2) with hmdef
    have hK : (m.records.find? (matchesTriple x.1 lat lon)).isSome = true := by
      rw [hmdef]
      apply find?_isSome_applyItems
      obtain ⟨r0, hr0, _, _⟩ :=
        find?_upsertRecord_self lat lon now s x.1 x.2.1 x.2.2
      rw [hr0]
      rfl
    by_cases hx : ∃ y ∈ xs, y.1 = x.1
    · have hupd : upsertRecord lat lon now2 m x.1 x.2.1 x.2.2
          = { m with records := updateTriple x.1 lat lon x.2.1 x.2.2 m.records } := by
        unfold upsertRecord
        rw [if_pos hK]
      rw [hupd]
      rw [applyItems_diff x.1 lat lon now2 xs
        { m with records := updateTriple x.1 lat lon x.2.1 x.2.2 m.records } m
        (DiffAtFirst.updateTriple_self x.1 lat lon x.2.1 x.2.2 m.records)
        rfl hx]
      rw [hmdef]
      exact ih (upsertRecord lat lon now s x.1 x.2.1 x.2.2)
    · push_neg at hx
      obtain ⟨r0, hr0, hrv, hrh⟩ :=
        find?_upsertRecord_self lat lon now s x.1 x.2.1 x.2.2
      have hfound : m.records.find? (matchesTriple x.1 lat lon) = some r0 := by
        rw [hmdef, find?_applyItems_notin lat lon now x.1 xs _ hx, hr0]
      have hupd : upsertRecord lat lon now2 m x.1 x.2.1 x.2.2 = m := by
        unfold upsertRecord
        rw [if_pos hK, updateTriple_id_of_values x.1 lat lon x.2.1 x.2.2
          m.records r0 hfound hrv hrh]
      rw [hupd, hmdef]
      exact ih (upsertRecord lat lon now s x.1 x.2.1 x.2.2)

/-- C2: reconcile is idempotent. If a reconcile call for a series and
coordinate pair commits successfully, a second call with the same series
and coordinates (at any later ingestion instant) commits the store
unchanged: it only updates existing rows and creates nothing new — the
final record set equals that of the single call. -/
theorem reconcile_idempotent (times : List Int)
    (temps hums : List (Option Rat)) (lat lon : Rat) (now now2 : Int)
    (s s1 : Store)
    (hrun : process_and_store_weather_data times temps hums lat lon now
      true s = .ok s1) :
    process_and_store_weather_data times temps hums lat lon now2 true s1
      = .ok s1 := by
  unfold process_and_store_weather_data at hrun ⊢
  cases hl : processLoop lat lon now temps hums 0 times s with
  | error e => rw [hl] at hrun; simp at hrun
  | ok pending =>
    rw [hl] at hrun
    simp at hrun
    rw [processLoop_eq_collect] at hl
    cases hc : collectValid temps hums 0 times with
    | error e => rw [hc] at hl; simp [Except.map] at hl
    | ok items =>
      rw [hc] at hl
      have hs1 : applyItems lat lon now items s = pending := by
        simpa [Except.map] using hl
      rw [processLoop_eq_collect, hc]
      show Except.ok (applyItems lat lon now2 items s1) = Except.ok s1
      have hfix : applyItems lat lon now2 items s1 = s1 := by
        rw [← hrun, ← hs1]
        exact applyItems_idem lat lon now now2 items s
      rw [hfix]

/-- Witness for `reconcile_idempotent` on a one-row series: the second
call returns precisely the store produced by the first. -/
theorem reconcile_idempotent_witness :
    process_and_store_weather_data [0] [some 1] [some 2] 3 4 5 true
      emptyStore = .ok ⟨[⟨1, 0, 3, 4, 1, 2, 5⟩], 2⟩
    ∧ process_and_store_weather_data [0] [some 1] [some 2] 3 4 6 true
        ⟨[⟨1, 0, 3, 4, 1, 2, 5⟩], 2⟩ = .ok ⟨[⟨1, 0, 3, 4, 1, 2, 5⟩], 2⟩ :=
  ⟨rfl, reconcile_idempotent [0] [some 1] [some 2] 3 4 5 6 emptyStore
    ⟨[⟨1, 0, 3, 4, 1, 2, 5⟩], 2⟩ rfl⟩

/-! ## Round-trip and frame lemmas -/

/-- Membership characterisation of `byLocation`. -/
theorem mem_get_weather_data_by_location (lat lon : Rat) (hours now : Int)
    (s : Store) (r : WeatherData) :
    r ∈ get_weather_data_by_location lat lon hours now s ↔
      r ∈ s.records ∧ r.latitude = lat ∧ r.longitude = lon ∧
        now - hours ≤ r.timestamp := by
  unfold get_weather_data_by_location
  rw [(List.perm_insertionSort recLE _).mem_iff, List.mem_filter]
  simp

/-- A row of the updated list is an original row or the value-update of a
matching original row. -/
theorem mem_updateTriple (t : Int) (lat lon : Rat) (v h : Rat) :
    ∀ (l : List WeatherData) (r : WeatherData),
      r ∈ updateTriple t lat lon v h l →
      r ∈ l ∨ ∃ q ∈ l, matchesTriple t lat lon q = true ∧
        r = { q with temperature_2m := v, relative_humidity_2m := h } := by
  intro l
  induction l with
  | nil => intro r hr; simp [updateTriple] at hr
  | cons a rs ih =>
    intro r hr
    unfold updateTriple at hr
    by_cases hm : matchesTriple t lat lon a
    · rw [if_pos hm] at hr
      cases List.mem_cons.mp hr with
      | inl he => exact Or.inr ⟨a, List.mem_cons_self a rs, hm, he⟩
      | inr hm2 => exact Or.inl (List.mem_cons_of_mem a hm2)
    · rw [if_neg hm] at hr
      cases List.mem_cons.mp hr with
      | inl he => exact Or.inl (he ▸ List.mem_cons_self a rs)
      | inr hm2 =>
        cases ih r hm2 with
        | inl h2 => exact Or.inl (List.mem_cons_of_mem a h2)
        | inr h2 =>
          obtain ⟨q, hq, hqm, hqe⟩ := h2
          exact Or.inr ⟨q, List.mem_cons_of_mem a hq, hqm, hqe⟩

/-- Every row present after an upsert was already present or carries the
upsert coordinates. -/
theorem mem_upsertRecord_coords (lat lon : Rat) (now : Int) (s : Store)
    (t : Int) (v h : Rat) (r : WeatherData)
    (hr : r ∈ (upsertRecord lat lon now s t v h).records) :
    r ∈ s.records ∨ (r.latitude = lat ∧ r.longitude = lon) := by
  unfold upsertRecord at hr
  by_cases hs : (s.records.find? (matchesTriple t lat lon)).isSome
  · rw [if_pos hs] at hr
    cases mem_updateTriple t lat lon v h s.records r hr with
    | inl h2 => exact Or.inl h2
    | inr h2 =>
      obtain ⟨q, _, hqm, hqe⟩ := h2
      have hq := matchesTriple_elim hqm
      right
      rw [hqe]
      exact ⟨hq.2.1, hq.2.2⟩
  · rw [if_neg hs] at hr
    cases List.mem_append.mp hr with
    | inl h2 => exact Or.inl h2
    | inr h2 =>
      simp only [List.mem_singleton] at h2
      right
      rw [h2]
      exact ⟨rfl, rfl⟩

/-- Every row present after the upsert fold was already present or carries
the ingestion coordinates. -/
theorem mem_applyItems_coords (lat lon : Rat) (now : Int) :
    ∀ (items : List (Int × Rat × Rat)) (s : Store) (r : WeatherData),
      r ∈ (applyItems lat lon now items s).records →
      r ∈ s.records ∨ (r.latitude = lat ∧ r.longitude = lon) := by
  intro items
  induction items with
  | nil => intro s r hr; exact Or.inl hr
  | cons x xs ih =>
    intro s r hr
    cases ih _ r hr with
    | inl h2 => exact mem_upsertRecord_coords lat lon now s x.1 x.2.1 x.2.2 r h2
    | inr h2 => exact Or.inr h2

/-- C4: round-trip. For a successful reconcile at `(lat, lon)`: every row
it newly created carries exactly those coordinates, and every row of the
resulting store carrying those coordinates — in particular every row the
call wrote — is returned by `byLocation` queried with the identical
coordinate values and any `hoursBack` reaching back to its timestamp. The
returned row is that row itself, so its `temperature_2m` and
`relative_humidity_2m` are identical. -/
theorem reconcile_byLocation_roundtrip (times : List Int)
    (temps hums : List (Option Rat)) (lat lon : Rat) (now : Int)
    (s s1 : Store) (now2 hours : Int)
    (hrun : process_and_store_weather_data times temps hums lat lon now
      true s = .ok s1) :
    (∀ r ∈ s1.records, r ∉ s.records →
      r.latitude = lat ∧ r.longitude = lon)
    ∧ (∀ r ∈ s1.records, r.latitude = lat → r.longitude = lon →
      now2 - hours ≤ r.timestamp →
      r ∈ get_weather_data_by_location lat lon hours now2 s1) := by
  constructor
  · unfold process_and_store_weather_data at hrun
    cases hl : processLoop lat lon now temps hums 0 times s with
    | error e => rw [hl] at hrun; simp at hrun
    | ok pending =>
      rw [hl] at hrun
      simp at hrun
      rw [processLoop_eq_collect] at hl
      cases hc : collectValid temps hums 0 times with
      | error e => rw [hc] at hl; simp [Except.map] at hl
      | ok items =>
        rw [hc] at hl
        have hs1 : applyItems lat lon now items s = s1 := by
          rw [← hrun]
          simpa [Except.map] using hl
        intro r hr hns
        rw [← hs1] at hr
        cases mem_applyItems_coords lat lon now items s r hr with
        | inl h2 => exact absurd h2 hns
        | inr h2 => exact h2
  · intro r hr hlat hlon hcut
    exact (mem_get_weather_data_by_location lat lon hours now2 s1 r).mpr
      ⟨hr, hlat, hlon, hcut⟩

/-- Witness for `reconcile_byLocation_roundtrip`: the row written by a
concrete reconcile is read back by `byLocation` at the same coordinates. -/
theorem reconcile_byLocation_roundtrip_witness :
    (⟨1, 0, 3, 4, 1, 2, 5⟩ : WeatherData) ∈
      get_weather_data_by_location 3 4 48 0 ⟨[⟨1, 0, 3, 4, 1, 2, 5⟩], 2⟩ :=
  (reconcile_byLocation_roundtrip [0] [some 1] [some 2] 3 4 5 emptyStore
    ⟨[⟨1, 0, 3, 4, 1, 2, 5⟩], 2⟩ 0 48 rfl).2 ⟨1, 0, 3, 4, 1, 2, 5⟩
    (by decide) rfl rfl (by decide)

/-- In a store with unique triples, updating a present triple leaves
exactly one matching row — the value-update of the original — and does not
touch any non-matching row. -/
theorem updateTriple_filter_frame (t : Int) (lat lon : Rat) (v h : Rat) :
    ∀ (l : List WeatherData) (r : WeatherData),
      TripleUnique l → r ∈ l → matchesTriple t lat lon r = true →
      (updateTriple t lat lon v h l).filter (matchesTriple t lat lon)
          = [{ r with temperature_2m := v, relative_humidity_2m := h }]
      ∧ (updateTriple t lat lon v h l).filter
            (fun q => ! matchesTriple t lat lon q)
          = l.filter (fun q => ! matchesTriple t lat lon q) := by
  intro l
  induction l with
  | nil => intro r _ hr _; simp at hr
  | cons a rs ih =>
    intro r hInv hr hm
    by_cases hma : matchesTriple t lat lon a
    · have hra : r = a := by
        cases List.mem_cons.mp hr with
        | inl he => exact he
        | inr hmem =>
          exfalso
          have h1 : tripleOf a = (t, lat, lon) :=
            (matchesTriple_iff t lat lon a).mp hma
          have h2 : tripleOf r = (t, lat, lon) :=
            (matchesTriple_iff t lat lon r).mp hm
          have hdup : tripleOf a ∈ rs.map tripleOf := by
            rw [h1, ← h2]
            exact List.mem_map_of_mem tripleOf hmem
          unfold TripleUnique at hInv
          rw [List.map_cons] at hInv
          exact (List.nodup_cons.mp hInv).1 hdup
      subst hra
      unfold updateTriple
      rw [if_pos hm]
      have hnomatch : ∀ q ∈ rs, ¬(matchesTriple t lat lon q = true) := by
        intro q hq hqm
        have h1 : tripleOf r = (t, lat, lon) :=
          (matchesTriple_iff t lat lon r).mp hm
        have h2 : tripleOf q = (t, lat, lon) :=
          (matchesTriple_iff t lat lon q).mp hqm
        have hdup : tripleOf r ∈ rs.map tripleOf := by
          rw [h1, ← h2]
          exact List.mem_map_of_mem tripleOf hq
        unfold TripleUnique at hInv
        rw [List.map_cons] at hInv
        exact (List.nodup_cons.mp hInv).1 hdup
      constructor
      · rw [List.filter_cons_of_pos (by rw [matchesTriple_update]; exact hm)]
        rw [List.filter_eq_nil_iff.mpr hnomatch]
      · rw [List.filter_cons_of_neg (by rw [matchesTriple_update]; simp [hm]),
          List.filter_cons_of_neg (by simp [hm])]
    · have hrs : r ∈ rs := by
        cases List.mem_cons.mp hr with
        | inl he => exact absurd (he ▸ hm) (by simpa using hma)
        | inr hmem => exact hmem
      have hInv2 : TripleUnique rs := by
        unfold TripleUnique at hInv ⊢
        rw [List.map_cons] at hInv
        exact (List.nodup_cons.mp hInv).2
      obtain ⟨ih1, ih2⟩ := ih r hInv2 hrs hm
      unfold updateTriple
      rw [if_neg hma]
      constructor
      · rw [List.filter_cons_of_neg (by simpa using hma)]
        exact ih1
      · rw [List.filter_cons_of_pos (by simpa using hma),
          List.filter_cons_of_pos (by simpa using hma)]
        rw [ih2]

/-- C5: frame property of a re-ingest of one already-present triple. For a
store with unique triples holding a row `r` for `(t, lat, lon)`, a second
reconcile of a series carrying only that triple with new values leaves
exactly one row for the triple — `r` with only `temperature_2m` and
`relative_humidity_2m` overwritten, so its `id`, `created_at`, timestamp
and coordinates are unchanged — while every non-matching row, the row
count and the id counter are untouched. -/
theorem reconcile_update_frame (t : Int) (lat lon : Rat) (v2 h2 : Rat)
    (now2 : Int) (s : Store) (r : WeatherData)
    (hInv : TripleUnique s.records) (hr : r ∈ s.records)
    (hm : matchesTriple t lat lon r = true) :
    ∃ s1, process_and_store_weather_data [t] [some v2] [some h2] lat lon
        now2 true s = .ok s1
      ∧ s1.records.filter (matchesTriple t lat lon)
          = [{ r with temperature_2m := v2, relative_humidity_2m := h2 }]
      ∧ s1.records.filter (fun q => ! matchesTriple t lat lon q)
          = s.records.filter (fun q => ! matchesTriple t lat lon q)
      ∧ s1.records.length = s.records.length
      ∧ s1.nextId = s.nextId := by
  have hfind : (s.records.find? (matchesTriple t lat lon)).isSome = true :=
    List.find?_isSome.mpr ⟨r, hr, hm⟩
  refine ⟨{ s with records := updateTriple t lat lon v2 h2 s.records },
    ?_, ?_, ?_, ?_, rfl⟩
  · show Except.ok (upsertRecord lat lon now2 s t v2 h2)
      = Except.ok { s with records := updateTriple t lat lon v2 h2 s.records }
    unfold upsertRecord
    rw [if_pos hfind]
  · exact (updateTriple_filter_frame t lat lon v2 h2 s.records r hInv hr hm).1
  · exact (updateTriple_filter_frame t lat lon v2 h2 s.records r hInv hr hm).2
  · exact updateTriple_length t lat lon v2 h2 s.records

/-- Witness for `reconcile_update_frame` on a one-row store: the second
ingest with temperature 7, humidity 8 leaves one row with the new values
and the original id and creation time. -/
theorem reconcile_update_frame_witness :
    ∃ s1, process_and_store_weather_data [0] [some 7] [some 8] 3 4 9 true
        ⟨[⟨1, 0, 3, 4, 1, 2, 5⟩], 2⟩ = .ok s1
      ∧ s1.records.filter (matchesTriple 0 3 4) = [⟨1, 0, 3, 4, 7, 8, 5⟩]
      ∧ s1.records.filter (fun q => ! matchesTriple 0 3 4 q)
          = ([⟨1, 0, 3, 4, 1, 2, 5⟩] : List WeatherData).filter
              (fun q => ! matchesTriple 0 3 4 q)
      ∧ s1.records.length
          = ([⟨1, 0, 3, 4, 1, 2, 5⟩] : List WeatherData).length
      ∧ s1.nextId = 2 :=
  reconcile_update_frame 0 3 4 7 8 9 ⟨[⟨1, 0, 3, 4, 1, 2, 5⟩], 2⟩
    ⟨1, 0, 3, 4, 1, 2, 5⟩ (by decide) (by decide) (by decide)
